import Mathlib

/-!
Verification of the mesh-to-glTF vertex reduction pipeline
(`gltf2_blender_extract.py`) against its specification.

The development shallowly embeds the extraction core:

* scalar attribute values are exact rationals (`ℚ`) standing for the
  numeric values the pipeline moves around;
* a mesh is a snapshot of the per-vertex / per-corner data streams that
  `extract_primitives` consumes from Blender;
* `np.unique(..., return_inverse=True)` on the structured "dot" array is
  modelled by `npUnique`: sorted deduplication plus an inverse map built
  with `indexOf`;
* each helper of the source file (`__zup2yup`, `__get_uvs_attribute`,
  `__get_bone_data`, `__calc_morph_tangents`, the FACE-domain branch of
  `__get_layer_attribute`, the attribute-layout table) is translated into
  its own definition.
-/

/-- A 3-vector of rationals, the model for a row of a numpy (n, 3) float array. -/
abbrev Vec3 : Type := ℚ × ℚ × ℚ

/-- A 4-vector of rationals (tangent with bitangent sign). -/
abbrev Vec4 : Type := ℚ × ℚ × ℚ × ℚ

def v0 : Vec3 := (0, 0, 0)

def q0 : Vec4 := (0, 0, 0, 0)

/-- Row encoding of a 3-vector, as stored in a materialized attribute array. -/
def vec3Row (v : Vec3) : List ℚ := [v.1, v.2.1, v.2.2]

/-- Row encoding of a 4-vector. -/
def quadRow (q : Vec4) : List ℚ := [q.1, q.2.1, q.2.2.1, q.2.2.2]

/-- Row encoding of a UV pair. -/
def pairRow (p : ℚ × ℚ) : List ℚ := [p.1, p.2]

/-- First three entries of a row, as a 3-vector (`tangents[i, :3]`). -/
def rowToVec3 (r : List ℚ) : Vec3 := (r.getD 0 0, r.getD 1 0, r.getD 2 0)

def vadd (a b : Vec3) : Vec3 := (a.1 + b.1, a.2.1 + b.2.1, a.2.2 + b.2.2)

def vsub (a b : Vec3) : Vec3 := (a.1 - b.1, a.2.1 - b.2.1, a.2.2 - b.2.2)

def smul (c : ℚ) (a : Vec3) : Vec3 := (c * a.1, c * a.2.1, c * a.2.2)

def dot3 (a b : Vec3) : ℚ := a.1 * b.1 + a.2.1 * b.2.1 + a.2.2 * b.2.2

def cross3 (a b : Vec3) : Vec3 :=
  (a.2.1 * b.2.2 - a.2.2 * b.2.1,
   a.2.2 * b.1 - a.1 * b.2.2,
   a.1 * b.2.1 - a.2.1 * b.1)

/-- Lexicographic "less or equal" on rows of rationals: the comparison numpy
uses between equal-layout structured records, field by field. -/
def rowLe : List ℚ → List ℚ → Bool
  | [], _ => true
  | _ :: _, [] => false
  | a :: as, b :: bs => if a < b then true else if b < a then false else rowLe as bs

theorem rowLe_total : ∀ x y : List ℚ, rowLe x y = true ∨ rowLe y x = true := by
  intro x
  induction x with
  | nil => intro y; left; rfl
  | cons a as ih =>
    intro y
    cases y with
    | nil => right; rfl
    | cons b bs =>
      rcases lt_trichotomy a b with h | h | h
      · left; simp [rowLe, h]
      · subst h
        rcases ih bs with h2 | h2
        · left; simp [rowLe, lt_irrefl, h2]
        · right; simp [rowLe, lt_irrefl, h2]
      · right; simp [rowLe, h]

theorem rowLe_trans :
    ∀ x y z : List ℚ, rowLe x y = true → rowLe y z = true → rowLe x z = true := by
  intro x
  induction x with
  | nil => intro y z _ _; rfl
  | cons a as ih =>
    intro y z hxy hyz
    cases y with
    | nil => simp [rowLe] at hxy
    | cons b bs =>
      cases z with
      | nil => simp [rowLe] at hyz
      | cons c cs =>
        rcases lt_trichotomy a b with hab | hab | hab
        · rcases lt_trichotomy b c with hbc | hbc | hbc
          · simp [rowLe, lt_trans hab hbc]
          · subst hbc; simp [rowLe, hab]
          · exfalso; simp [rowLe, hbc, not_lt_of_gt hbc] at hyz
        · subst hab
          rcases lt_trichotomy a c with hac | hac | hac
          · simp [rowLe, hac]
          · subst hac
            simp only [rowLe, lt_irrefl, if_false] at hxy hyz ⊢
            exact ih _ _ hxy hyz
          · exfalso; simp [rowLe, hac, not_lt_of_gt hac] at hyz
        · exfalso; simp [rowLe, hab, not_lt_of_gt hab] at hxy

/-- `indexOf` pinned to the `DecidableEq`-derived equality test, so every
use of it compares values the same way deduplication does. -/
abbrev npIndexOf {α : Type} [DecidableEq α] (x : α) (l : List α) : Nat :=
  @List.indexOf α instBEqOfDecidableEq x l

/-- Model of `np.unique(xs, return_inverse=True)`: the deduplicated values in
sorted order, together with, for each input position, the index of that
value inside the sorted unique list. -/
def npUnique {α : Type} [DecidableEq α] (r : α → α → Prop) [DecidableRel r]
    (xs : List α) : List α × List Nat :=
  let u := List.insertionSort r xs.dedup
  (u, xs.map (fun x => npIndexOf x u))

theorem npUnique_mem {α : Type} [DecidableEq α] (r : α → α → Prop) [DecidableRel r]
    (xs : List α) (x : α) : x ∈ (npUnique r xs).1 ↔ x ∈ xs := by
  unfold npUnique
  rw [(List.perm_insertionSort r xs.dedup).mem_iff, List.mem_dedup]

theorem npUnique_nodup {α : Type} [DecidableEq α] (r : α → α → Prop) [DecidableRel r]
    (xs : List α) : (npUnique r xs).1.Nodup := by
  unfold npUnique
  exact (List.perm_insertionSort r xs.dedup).nodup_iff.mpr (List.nodup_dedup xs)

theorem npUnique_sorted {α : Type} [DecidableEq α] (r : α → α → Prop) [DecidableRel r]
    [IsTotal α r] [IsTrans α r] (xs : List α) : (npUnique r xs).1.Sorted r :=
  List.sorted_insertionSort r xs.dedup

theorem npUnique_inv_eq_map {α : Type} [DecidableEq α] (r : α → α → Prop) [DecidableRel r]
    (xs : List α) :
    (npUnique r xs).2 = xs.map (fun x => npIndexOf x (npUnique r xs).1) := by
  simp [npUnique]

theorem npUnique_inv_lt {α : Type} [DecidableEq α] (r : α → α → Prop) [DecidableRel r]
    (xs : List α) : ∀ k ∈ (npUnique r xs).2, k < (npUnique r xs).1.length := by
  intro k hk
  rcases List.mem_map.mp hk with ⟨x, hx, rfl⟩
  exact List.indexOf_lt_length.mpr ((npUnique_mem r xs x).mpr hx)

theorem npUnique_inv_getD {α : Type} [DecidableEq α] (r : α → α → Prop) [DecidableRel r]
    (xs : List α) (j : Nat) (h : j < xs.length) (d : α) :
    (npUnique r xs).2.getD j 0 = npIndexOf (xs.getD j d) (npUnique r xs).1 := by
  have hlen : j < ((npUnique r xs).2).length := by
    unfold npUnique
    simpa using h
  rw [List.getD_eq_getElem _ _ hlen, List.getD_eq_getElem _ _ h]
  show (List.map _ xs)[j] = _
  rw [List.getElem_map]
  rfl

theorem npUnique_getD_inv {α : Type} [DecidableEq α] (r : α → α → Prop) [DecidableRel r]
    (xs : List α) (j : Nat) (h : j < xs.length) (d : α) :
    (npUnique r xs).1.getD ((npUnique r xs).2.getD j 0) d = xs.getD j d := by
  rw [npUnique_inv_getD r xs j h d]
  have hmem : xs.getD j d ∈ (npUnique r xs).1 := by
    rw [npUnique_mem]
    rw [List.getD_eq_getElem _ _ h]
    exact List.getElem_mem h
  have hlt : List.indexOf (xs.getD j d) (npUnique r xs).1 < (npUnique r xs).1.length :=
    List.indexOf_lt_length.mpr hmem
  rw [List.getD_eq_getElem _ _ hlt]
  exact List.getElem_indexOf hlt

theorem npUnique_inv_inj {α : Type} [DecidableEq α] (r : α → α → Prop) [DecidableRel r]
    (xs : List α) (j1 j2 : Nat) (h1 : j1 < xs.length) (h2 : j2 < xs.length) (d : α) :
    (npUnique r xs).2.getD j1 0 = (npUnique r xs).2.getD j2 0 ↔
      xs.getD j1 d = xs.getD j2 d := by
  constructor
  · intro h
    have e1 := npUnique_getD_inv r xs j1 h1 d
    have e2 := npUnique_getD_inv r xs j2 h2 d
    rw [← e1, ← e2, h]
  · intro h
    rw [npUnique_inv_getD r xs j1 h1 d, npUnique_inv_getD r xs j2 h2 d, h]

/-- The per-corner part of a "dot" record beyond the vertex index: every
exported per-corner attribute value, in the order the source registers the
attribute channels (custom/color layer attributes, UV sets, split normal,
tangent with bitangent sign, morph normal deltas). Structural equality of
two `DotData` values is exactly "every exported per-corner attribute value
is identical". -/
structure DotData where
  custom : List (List ℚ)
  uv : List (ℚ × ℚ)
  normal : Option Vec3
  tangent : Option Vec4
  morphNormal : List Vec3
  deriving DecidableEq

/-- A "dot": the source vertex index together with all per-corner data.
One dot is collected per mesh loop (corner); each unique dot becomes one
glTF vertex. -/
abbrev Dot : Type := Nat × DotData

def dot0 : Dot := (0, ⟨[], [], none, none, []⟩)

/-- Flattening of a dot into the field order of the numpy structured array
(`vertex_index` first, then each attribute's scalar slots in registration
order); `np.unique` sorts records by comparing these fields left to right. -/
def dotKey (d : Dot) : List ℚ :=
  ((d.1 : ℚ)) ::
    (d.2.custom.flatten ++ d.2.uv.flatMap pairRow ++
      (match d.2.normal with | none => [] | some v => vec3Row v) ++
      (match d.2.tangent with | none => [] | some q => quadRow q) ++
      d.2.morphNormal.flatMap vec3Row)

/-- Record ordering used when sorting dots, the comparison underlying
`np.unique` on the structured dot array. -/
def dotR (a b : Dot) : Prop := rowLe (dotKey a) (dotKey b) = true

instance : DecidableRel dotR := fun a b => by unfold dotR; infer_instance

instance : IsTotal Dot dotR := ⟨fun a b => rowLe_total (dotKey a) (dotKey b)⟩

instance : IsTrans Dot dotR :=
  ⟨fun a b c => rowLe_trans (dotKey a) (dotKey b) (dotKey c)⟩

/-- Ordering used by `np.unique` on the uint32 vertex-index array of a
loose-edge primitive. -/
def natR (a b : Nat) : Prop := a ≤ b

instance : DecidableRel natR := fun a b => by unfold natR; infer_instance

/-- Snapshot of everything `extract_primitives` reads from the mesh, after
the getter helpers (`__get_positions`, `__get_normals`, `__get_tangents`,
...) have produced their arrays:

* `locs`: per-vertex positions (already transformed, `locs` in the source);
* `morphLocs`: per-morph-target position deltas, per vertex;
* `loops`: the corner-to-vertex index map (`loops.vertex_index`);
* `customAttrs`: per custom/color attribute, the per-corner value rows;
* `uvLayers`: per UV layer, the raw per-corner Blender UVs (before the
  UV-convention flip done by `__get_uvs_attribute`);
* `normals`: per-corner split normals when normal export is on;
* `morphNormals`: per morph target, the per-corner normal deltas;
* `tangents`: per-corner tangent plus bitangent sign when tangents are on;
* `useMorphNormals` / `useMorphTangents`: the export flags of the same
  names;
* `triLoops`: flattened loop-triangle corner indices (3 per triangle);
* `triMats`: material index per triangle;
* `edges`: (vertex, vertex, is_loose) per mesh edge. -/
structure Mesh where
  locs : List Vec3
  morphLocs : List (List Vec3)
  loops : List Nat
  customAttrs : List (List (List ℚ))
  uvLayers : List (List (ℚ × ℚ))
  normals : Option (List Vec3)
  morphNormals : List (List Vec3)
  tangents : Option (List Vec4)
  useMorphNormals : Bool
  useMorphTangents : Bool
  triLoops : List Nat
  triMats : List Nat
  edges : List (Nat × Nat × Bool)

/-- The export settings consulted by the primitive assembly. -/
structure Settings where
  useMaterialsNone : Bool
  looseEdges : Bool
  loosePoints : Bool

/-- `__zup2yup`: `array[:, [1,2]] = array[:, [2,1]]` (swap y and z), then
`array[:, 2] *= -1` (negate the new third column). -/
def zup2yup (v : Vec3) : Vec3 :=
  let v1 : Vec3 := (v.1, v.2.2, v.2.1)
  (v1.1, v1.2.1, -v1.2.2)

/-- `__zup2yup` applied to a batch of row vectors. -/
def zup2yupBatch (l : List Vec3) : List Vec3 := l.map zup2yup

/-- `__get_uvs_attribute`: Blender UV space to glTF UV space,
`uvs[:, 1] *= -1` then `uvs[:, 1] += 1` on every corner's UV. -/
def getUvsAttribute (uvs : List (ℚ × ℚ)) : List (ℚ × ℚ) :=
  uvs.map (fun p => (p.1, -p.2 + 1))

/-- `mathutils`: `a.rotation_difference(b)` applied to `v` — the shortest-arc
rotation carrying (unit) `a` onto (unit) `b`, applied to `v`.  For unit
inputs (the internal normalization of `rotation_difference` is then the
identity) the rotation is `v ↦ (a·b) v + (a×b)×v + ((a×b)·v)/(1+a·b) (a×b)`. -/
def rotDiffApply (a b v : Vec3) : Vec3 :=
  vadd (vadd (smul (dot3 a b) v) (cross3 (cross3 a b) v))
    (smul (dot3 (cross3 a b) v / (1 + dot3 a b)) (cross3 a b))

/-- `__calc_morph_tangents`: for each output vertex, rebuild the morphed
normal `morph_n = n + delta`, take `rotation = morph_n.rotation_difference(n)`
(the rotation carrying the morphed normal onto the base normal), rotate the
base tangent by it and store the result minus the base tangent. Operates on
the already-materialized row arrays. -/
def calcMorphTangents (normals morphNormalDeltas tangents : List (List ℚ)) :
    List (List ℚ) :=
  (List.range normals.length).map (fun i =>
    let n := rowToVec3 (normals.getD i [])
    let morphN := vadd n (rowToVec3 (morphNormalDeltas.getD i []))
    let t := rowToVec3 (tangents.getD i [])
    vec3Row (vsub (rotDiffApply morphN n t) t))

/-- Building of the dot array: for every corner, the vertex index from the
corner-to-vertex map plus every exported per-corner attribute value, with
UVs passed through `__get_uvs_attribute`. -/
def dotsOf (m : Mesh) : List Dot :=
  (List.range m.loops.length).map (fun c =>
    (m.loops.getD c 0,
     { custom := m.customAttrs.map (fun ca => ca.getD c []),
       uv := m.uvLayers.map (fun layer => (getUvsAttribute layer).getD c (0, 0)),
       normal := m.normals.map (fun ns => ns.getD c v0),
       tangent := m.tangents.map (fun ts => ts.getD c q0),
       morphNormal := m.morphNormals.map (fun mns => mns.getD c v0) }))

/-- `dots[dot_indices]`: gather the dots at a partition's corner indices. -/
def gatherDots (m : Mesh) (idxs : List Nat) : List Dot :=
  idxs.map (fun i => (dotsOf m).getD i dot0)

/-- `np.unique(tri_material_idxs)`: sorted unique material indices. -/
def sortedUniqueNats (xs : List Nat) : List Nat :=
  List.insertionSort natR xs.dedup

/-- `np.repeat(tri_material_idxs, 3)`: the material index of every corner. -/
def loopMaterials (m : Mesh) : List Nat :=
  m.triMats.flatMap (fun t => [t, t, t])

/-- `loop_indices[loop_material_idxs == material_idx]`: the triangle corner
indices belonging to one material bucket. -/
def partitionFor (m : Mesh) (mi : Nat) : List Nat :=
  (m.triLoops.zip (loopMaterials m)).filterMap
    (fun p => if p.2 = mi then some p.1 else none)

/-- The `prim_indices` dictionary in iteration order: with materials
excluded ("NONE") a single bucket keyed by the sentinel -1 holding every
triangle corner, otherwise one bucket per occurring material index, in
ascending material order. -/
def matPartitions (m : Mesh) (useMaterialsNone : Bool) : List (Int × List Nat) :=
  if useMaterialsNone then [(-1, m.triLoops)]
  else (sortedUniqueNats m.triMats).map (fun mi => (Int.ofNat mi, partitionFor m mi))

/-- The glTF attribute names used as keys of the `attributes` dictionary of
a primitive, as a closed tag type (`custom k` stands for the k-th
`_NAME`/`COLOR_0` channel coming from `blender_mesh.attributes`). -/
inductive AttrName : Type
  | custom (k : Nat)
  | position
  | texcoord (i : Nat)
  | normal
  | tangent
  | morphPosition (k : Nat)
  | morphNormal (k : Nat)
  | morphTangent (k : Nat)
  | joints (s : Nat)
  | weights (s : Nat)
  deriving DecidableEq

/-- One output primitive record: the attribute arrays (rows of scalars,
index-aligned), the optional index buffer, the topology mode (4 =
triangles, the default left implicit by the source dictionary; 1 = lines;
0 = points) and the material index (-1 is the "no material" sentinel). -/
structure Primitive where
  attrs : List (AttrName × List (List ℚ))
  indices : Option (List Nat)
  mode : Nat
  material : Int

/-- `__get_bone_data`: kept (joint, weight) pairs of one vertex — every
group element whose weight exceeds `min_influence = 1e-4` and whose group
index resolves (in range, and the group's name is a skin joint name). -/
def vertexKeptPairs (groupToJoint : List (Option Nat)) (groups : List (Nat × ℚ)) :
    List (Nat × ℚ) :=
  groups.filterMap (fun gw =>
    if gw.2 ≤ 1 / 10000 then none
    else (groupToJoint.getD gw.1 none).map (fun j => (j, gw.2)))

/-- Descending-by-weight ordering of (joint, weight) pairs. -/
def weightGe (a b : Nat × ℚ) : Prop := b.2 ≤ a.2

instance : DecidableRel weightGe := fun a b => by unfold weightGe; infer_instance

instance : IsTotal (Nat × ℚ) weightGe := ⟨fun a b => le_total b.2 a.2⟩

instance : IsTrans (Nat × ℚ) weightGe := ⟨fun _ _ _ h1 h2 => le_trans h2 h1⟩

/-- `joint_name_to_index` dictionary lookup: the dict comprehension maps a
name to the index of its last occurrence in the skin joint list. -/
def jointNameToIndex (jointNames : List String) (g : String) : Option Nat :=
  ((jointNames.enum.filter (fun p => p.2 = g)).getLast?).map (fun p => p.1)

/-- `group_to_joint`: for each vertex group, the skin joint index its name
resolves to, if any. -/
def groupToJoint (jointNames groupNames : List String) : List (Option Nat) :=
  groupNames.map (fun g => jointNameToIndex jointNames g)

/-- `__get_bone_data`: per vertex, the kept pairs sorted by descending
weight, or the single synthetic binding `(len(skin.joints), 1.0)` when no
pair survives; plus `num_joint_sets = (max_influences + 3) // 4` and the
`need_neutral_bone` flag raised exactly when some vertex got the synthetic
binding. -/
def getBoneData (jointNames groupNames : List String)
    (verts : List (List (Nat × ℚ))) :
    List (List (Nat × ℚ)) × Nat × Bool :=
  let g2j := groupToJoint jointNames groupNames
  let vertBones := verts.map (fun groups =>
    let bones := List.insertionSort weightGe (vertexKeptPairs g2j groups)
    if bones.isEmpty then [(jointNames.length, (1 : ℚ))] else bones)
  let maxInfluences := vertBones.foldl (fun acc b => max acc b.length) 0
  (vertBones, (maxInfluences + 3) / 4,
    verts.any (fun groups =>
      (List.insertionSort weightGe (vertexKeptPairs g2j groups)).isEmpty))

/-- `vert_bones[vi][j]` with the `(0, 0.0)` padding used when the vertex
has fewer than `4 * num_joint_sets` influences. -/
def boneAt (vertBones : List (List (Nat × ℚ))) (vi j : Nat) : Nat × ℚ :=
  (vertBones.getD vi []).getD j (0, 0)

/-- The 4-wide JOINTS_s row of one vertex (the source appends the four
scalars of each vertex consecutively to the flat `joints[s]` list; a row
here is that group of four). -/
def jointsRow (vertBones : List (List (Nat × ℚ))) (vi s : Nat) : List ℚ :=
  (List.range 4).map (fun r => ((boneAt vertBones vi (4 * s + r)).1 : ℚ))

/-- The 4-wide WEIGHTS_s row of one vertex. -/
def weightsRow (vertBones : List (List (Nat × ℚ))) (vi s : Nat) : List ℚ :=
  (List.range 4).map (fun r => (boneAt vertBones vi (4 * s + r)).2)

/-- The JOINTS_s / WEIGHTS_s attribute entries added when a skin is
present: `skin` carries (`vert_bones`, `num_joint_sets`). -/
def jwSeg (skin : Option (List (List (Nat × ℚ)) × Nat)) (bidxs : List Nat) :
    List (AttrName × List (List ℚ)) :=
  match skin with
  | none => []
  | some (vb, njs) =>
    (List.range njs).flatMap (fun s =>
      [(AttrName.joints s, bidxs.map (fun vi => jointsRow vb vi s)),
       (AttrName.weights s, bidxs.map (fun vi => weightsRow vb vi s))])

/-- The custom/color attribute arrays of a primitive, one column block per
registered mesh attribute, gathered from the unique dots. -/
def customSeg (m : Mesh) (u : List Dot) : List (AttrName × List (List ℚ)) :=
  (List.range m.customAttrs.length).map (fun k =>
    (AttrName.custom k, u.map (fun d => d.2.custom.getD k [])))

/-- POSITION, set by `__set_positions_attribute`: `locs[blender_idxs]`. -/
def posSeg (m : Mesh) (bidxs : List Nat) : List (AttrName × List (List ℚ)) :=
  [(AttrName.position, bidxs.map (fun vi => vec3Row (m.locs.getD vi v0)))]

/-- TEXCOORD_i arrays gathered from the unique dots. -/
def texSeg (m : Mesh) (u : List Dot) : List (AttrName × List (List ℚ)) :=
  (List.range m.uvLayers.length).map (fun i =>
    (AttrName.texcoord i, u.map (fun d => pairRow (d.2.uv.getD i (0, 0)))))

/-- NORMAL array gathered from the unique dots, present when normal export
is on. -/
def normalSeg (m : Mesh) (u : List Dot) : List (AttrName × List (List ℚ)) :=
  if m.normals.isSome then
    [(AttrName.normal, u.map (fun d => vec3Row (d.2.normal.getD v0)))]
  else []

/-- TANGENT array gathered from the unique dots, present when tangent
export is on. -/
def tangentSeg (m : Mesh) (u : List Dot) : List (AttrName × List (List ℚ)) :=
  if m.tangents.isSome then
    [(AttrName.tangent, u.map (fun d => quadRow (d.2.tangent.getD q0)))]
  else []

/-- MORPH_POSITION_k (via `__set_morph_locs_attribute`,
`morph_locs[k][blender_idxs]`) and, when morph normals are exported,
MORPH_NORMAL_k gathered from the unique dots — in the interleaved order
the source registers them. -/
def morphSeg (m : Mesh) (u : List Dot) (bidxs : List Nat) :
    List (AttrName × List (List ℚ)) :=
  (List.range m.morphLocs.length).flatMap (fun k =>
    (AttrName.morphPosition k,
      bidxs.map (fun vi => vec3Row ((m.morphLocs.getD k []).getD vi v0))) ::
    (if m.useMorphNormals then
      [(AttrName.morphNormal k, u.map (fun d => vec3Row (d.2.morphNormal.getD k v0)))]
    else []))

/-- The `attributes` dictionary after the first materialization pass
(every attribute not flagged `after_others`), in registration order. -/
def baseAttrs (m : Mesh) (u : List Dot) : List (AttrName × List (List ℚ)) :=
  customSeg m u ++ posSeg m (u.map (fun d => d.1)) ++ texSeg m u ++
    normalSeg m u ++ tangentSeg m u ++ morphSeg m u (u.map (fun d => d.1))

/-- Reading `attributes[name]` in `__set_morph_tangent_attribute`. -/
def lookupArr (attrs : List (AttrName × List (List ℚ))) (a : AttrName) :
    List (List ℚ) :=
  (attrs.lookup a).getD []

/-- The second materialization pass: attributes flagged `after_others`
(MORPH_TANGENT_k), computed by `__set_morph_tangent_attribute` from the
NORMAL, MORPH_NORMAL_k and TANGENT entries already present in the
dictionary. -/
def pass2Seg (m : Mesh) (base : List (AttrName × List (List ℚ))) :
    List (AttrName × List (List ℚ)) :=
  if m.useMorphTangents then
    (List.range m.morphLocs.length).map (fun k =>
      (AttrName.morphTangent k,
        calcMorphTangents (lookupArr base AttrName.normal)
          (lookupArr base (AttrName.morphNormal k))
          (lookupArr base AttrName.tangent)))
  else []

/-- The full `attributes` dictionary of a triangle primitive: first pass,
then the `after_others` pass, then the JOINTS/WEIGHTS entries. -/
def buildAttrs (m : Mesh) (skin : Option (List (List (Nat × ℚ)) × Nat))
    (u : List Dot) : List (AttrName × List (List ℚ)) :=
  baseAttrs m u ++ pass2Seg m (baseAttrs m u) ++
    jwSeg skin (u.map (fun d => d.1))

/-- One triangle primitive from one material bucket: gather the bucket's
dots, deduplicate them with `np.unique(..., return_inverse=True)`, drop the
bucket if empty, else materialize every attribute over the unique dots and
keep the inverse map as the index buffer. -/
def buildTriPrim (m : Mesh) (skin : Option (List (List (Nat × ℚ)) × Nat))
    (mat : Int) (idxs : List Nat) : Option Primitive :=
  if (npUnique dotR (gatherDots m idxs)).1.length = 0 then none
  else some
    { attrs := buildAttrs m skin (npUnique dotR (gatherDots m idxs)).1,
      indices := some (npUnique dotR (gatherDots m idxs)).2,
      mode := 4,
      material := mat }

/-- The attributes of a loose-edge or loose-point primitive: only the
channels flagged `enable_for_edge` / `enable_for_point` (POSITION and the
MORPH_POSITION_k deltas), plus the skin channels. -/
def looseAttrs (m : Mesh) (skin : Option (List (List (Nat × ℚ)) × Nat))
    (bidxs : List Nat) : List (AttrName × List (List ℚ)) :=
  posSeg m bidxs ++
    (List.range m.morphLocs.length).map (fun k =>
      (AttrName.morphPosition k,
        bidxs.map (fun vi => vec3Row ((m.morphLocs.getD k []).getD vi v0)))) ++
    jwSeg skin bidxs

/-- `blender_idxs` of the loose-edge pass: both vertices of every loose
edge, in edge order. -/
def looseEdgeIdxs (m : Mesh) : List Nat :=
  (m.edges.filter (fun e => e.2.2)).flatMap (fun e => [e.1, e.2.1])

/-- The loose-edge primitive: one glTF vertex per unique Blender vertex of
a loose edge, a 2-per-edge index buffer from the `np.unique` inverse,
mode LINES. -/
def looseEdgePrim (m : Mesh) (skin : Option (List (List (Nat × ℚ)) × Nat)) :
    Option Primitive :=
  if (looseEdgeIdxs m).isEmpty then none
  else some
    { attrs := looseAttrs m skin (npUnique natR (looseEdgeIdxs m)).1,
      indices := some (npUnique natR (looseEdgeIdxs m)).2,
      mode := 1,
      material := 0 }

/-- `blender_idxs` of the loose-point pass: every vertex index touching no
edge at all, in vertex order. -/
def loosePointIdxs (m : Mesh) : List Nat :=
  (List.range m.locs.length).filter
    (fun vi => !((m.edges.flatMap (fun e => [e.1, e.2.1])).contains vi))

/-- The loose-point primitive: every vertex referenced by no edge at all,
in vertex order, no index buffer, mode POINTS. -/
def loosePointPrim (m : Mesh) (skin : Option (List (List (Nat × ℚ)) × Nat)) :
    Option Primitive :=
  if (loosePointIdxs m).isEmpty then none
  else some
    { attrs := looseAttrs m skin (loosePointIdxs m),
      indices := none,
      mode := 0,
      material := 0 }

/-- `extract_primitives`: triangle primitives (one per material bucket,
empty buckets dropped), then the loose-edge primitive when enabled, then
the loose-point primitive when enabled. -/
def extract_primitives (m : Mesh) (skin : Option (List (List (Nat × ℚ)) × Nat))
    (st : Settings) : List Primitive :=
  ((matPartitions m st.useMaterialsNone).filterMap
      (fun p => buildTriPrim m skin p.1 p.2)) ++
    (if st.looseEdges then (looseEdgePrim m skin).toList else []) ++
    (if st.loosePoints then (loosePointPrim m skin).toList else [])

/-- A mesh attribute as registered before layout assignment: its declared
element type string and whether it is flagged `skip_getting_to_dots`. -/
structure RawAttr where
  dataType : String
  skipGettingToDots : Bool

/-- The layout table of `extract_primitives` (the chain matching
`blender_data_type`): element count and numpy scalar type for each known
declared element type; unknown types have no entry. -/
def attrLayout (t : String) : Option (Nat × String) :=
  if t = "BYTE_COLOR" then some (4, "float32")
  else if t = "INT8" then some (1, "int8")
  else if t = "FLOAT2" then some (2, "float32")
  else if t = "BOOLEAN" then some (1, "bool")
  else if t = "STRING" then some (1, "str")
  else if t = "FLOAT_COLOR" then some (4, "float32")
  else if t = "FLOAT_VECTOR" then some (3, "float32")
  else if t = "FLOAT_VECTOR_4" then some (4, "float32")
  else if t = "INT" then some (1, "int32")
  else if t = "FLOAT" then some (1, "float32")
  else none

/-- The diagnostics printed by the layout loop: one ERROR line per
attribute whose declared element type has no layout entry. -/
def layoutDiagnostics (attrs : List RawAttr) : List String :=
  attrs.filterMap (fun a =>
    if (attrLayout a.dataType).isNone then
      some ("blender type not found " ++ a.dataType)
    else none)

/-- The `dot_fields` construction that follows the layout loop: for every
attribute not flagged `skip_getting_to_dots` it reads `attr['len']` — a key
the layout loop never set when the element type was unknown, so that read
raises `KeyError` and aborts the export. The result is the field width list
on success. -/
def dotFieldWidths : List RawAttr → Except String (List Nat)
  | [] => Except.ok []
  | a :: rest =>
    if a.skipGettingToDots then dotFieldWidths rest
    else
      match attrLayout a.dataType with
      | some l => (dotFieldWidths rest).map (fun ws => l.1 :: ws)
      | none => Except.error ("KeyError: len (" ++ a.dataType ++ ")")

/-- The FACE-domain branch of `__get_layer_attribute`:
`data.repeat(4, axis=0)` — every face's value is repeated exactly 4 times,
whatever the face's real corner count. -/
def faceBroadcast (faceVals : List ℚ) : List ℚ :=
  faceVals.flatMap (fun v => List.replicate 4 v)

/-- The assignment `dots[name] = data[:, i]` after the FACE-domain repeat:
numpy only accepts it when the column length equals the number of loops
(otherwise the assignment raises and the export aborts, modelled by
`none`). -/
def assignFaceAttrToDots (numLoops : Nat) (faceVals : List ℚ) : Option (List ℚ) :=
  if (faceBroadcast faceVals).length = numLoops then some (faceBroadcast faceVals)
  else none

/-- Specification-side definition (C7's wording): broadcast each face's
value to that face's own corner count, for any polygon size. -/
def faceBroadcastSpec (faceCounts : List Nat) (faceVals : List ℚ) : List ℚ :=
  (faceCounts.zip faceVals).flatMap (fun p => List.replicate p.1 p.2)

/-- Specification-side definition (C3's wording): deduplication keeping the
first occurrence of each distinct record, in first-occurrence order. -/
def firstOccurrenceDedup (xs : List Dot) : List Dot :=
  xs.foldl (fun acc x => if x ∈ acc then acc else acc ++ [x]) []

/-- Specification-side definition (C4's wording): the morph tangent delta
with the rotation taken from the BASE normal TO the morphed normal
(`base + delta`), applied to the base tangent. -/
def morphTangentDeltaSpec (n dn t : Vec3) : Vec3 :=
  vsub (rotDiffApply n (vadd n dn) t) t

theorem lookup_append (a : AttrName) (l1 l2 : List (AttrName × List (List ℚ))) :
    (l1 ++ l2).lookup a = ((l1.lookup a).or (l2.lookup a)) := by
  induction l1 with
  | nil => simp [List.lookup]
  | cons p rest ih =>
    rcases p with ⟨k, v⟩
    by_cases h : a = k
    · subst h; simp [List.lookup]
    · have hb : (a == k) = false := by simp [h]
      simp [List.lookup, hb, ih]

theorem lookup_eq_none_of (a : AttrName) (l : List (AttrName × List (List ℚ)))
    (h : ∀ p ∈ l, p.1 ≠ a) : l.lookup a = none := by
  induction l with
  | nil => rfl
  | cons p rest ih =>
    have hp : p.1 ≠ a := h p (List.mem_cons_self p rest)
    have hb : (a == p.1) = false := by
      simp [BEq.beq]
      exact fun he => hp he.symm
    rcases p with ⟨k, v⟩
    simp only [List.lookup, hb]
    exact ih (fun q hq => h q (List.mem_cons_of_mem _ hq))

theorem getD_range_map {β : Type} (f : Nat → β) (n i : Nat) (d : β) (h : i < n) :
    ((List.range n).map f).getD i d = f i := by
  have h1 : i < ((List.range n).map f).length := by simpa using h
  rw [List.getD_eq_getElem _ _ h1, List.getElem_map]
  simp

theorem getD_map_of_lt {α β : Type} (f : α → β) (l : List α) (i : Nat) (d : α) (e : β)
    (h : i < l.length) : (l.map f).getD i e = f (l.getD i d) := by
  have h1 : i < (l.map f).length := by simpa using h
  rw [List.getD_eq_getElem _ _ h1, List.getElem_map, List.getD_eq_getElem _ _ h]

theorem lookup_range_flatMap_none (f : Nat → List (AttrName × List (List ℚ)))
    (a : AttrName) (n : Nat) (h : ∀ k, k < n → ∀ p ∈ f k, p.1 ≠ a) :
    ((List.range n).flatMap f).lookup a = none := by
  apply lookup_eq_none_of
  intro p hp
  rcases List.mem_flatMap.mp hp with ⟨k, hk, hpk⟩
  exact h k (List.mem_range.mp hk) p hpk

theorem lookup_range_flatMap_at (f : Nat → List (AttrName × List (List ℚ)))
    (a : AttrName) (n k : Nat) (hk : k < n)
    (hne : ∀ j, j < n → j ≠ k → ∀ p ∈ f j, p.1 ≠ a) :
    ((List.range n).flatMap f).lookup a = (f k).lookup a := by
  induction n with
  | zero => exact absurd hk (Nat.not_lt_zero k)
  | succ n ih =>
    rw [List.range_succ, List.flatMap_append, lookup_append]
    rcases Nat.lt_succ_iff_lt_or_eq.mp hk with hlt | heq
    · rw [ih hlt (fun j hj => hne j (Nat.lt_succ_of_lt hj))]
      have hn : (f n).lookup a = none := by
        apply lookup_eq_none_of
        intro p hp
        exact hne n (Nat.lt_succ_self n) (fun he => absurd hlt (by rw [← he]; exact Nat.lt_irrefl n)) p hp
      simp [List.flatMap_singleton, hn]
    · subst heq
      have hnone : ((List.range k).flatMap f).lookup a = none := by
        apply lookup_range_flatMap_none
        intro j hj p hp
        exact hne j (Nat.lt_succ_of_lt hj) (Nat.ne_of_lt hj) p hp
      simp [List.flatMap_singleton, hnone, Option.or]

theorem customSeg_names (m : Mesh) (u : List Dot) :
    ∀ p ∈ customSeg m u, ∃ k, p.1 = AttrName.custom k := by
  intro p hp
  rcases List.mem_map.mp hp with ⟨k, _, rfl⟩
  exact ⟨k, rfl⟩

theorem texSeg_names (m : Mesh) (u : List Dot) :
    ∀ p ∈ texSeg m u, ∃ i, p.1 = AttrName.texcoord i := by
  intro p hp
  rcases List.mem_map.mp hp with ⟨i, _, rfl⟩
  exact ⟨i, rfl⟩

theorem morphSeg_names (m : Mesh) (u : List Dot) (bidxs : List Nat) :
    ∀ p ∈ morphSeg m u bidxs,
      ∃ k, p.1 = AttrName.morphPosition k ∨ p.1 = AttrName.morphNormal k := by
  intro p hp
  rcases List.mem_flatMap.mp hp with ⟨k, _, hpk⟩
  rcases List.mem_cons.mp hpk with h | h
  · exact ⟨k, Or.inl (by rw [h])⟩
  · refine ⟨k, Or.inr ?_⟩
    by_cases hmn : m.useMorphNormals
    · simp [hmn] at h
      rw [h]
    · simp [hmn] at h

theorem normalSeg_names (m : Mesh) (u : List Dot) :
    ∀ p ∈ normalSeg m u, p.1 = AttrName.normal := by
  intro p hp
  unfold normalSeg at hp
  split at hp
  · rcases List.mem_singleton.mp hp with rfl
    rfl
  · simp at hp

theorem tangentSeg_names (m : Mesh) (u : List Dot) :
    ∀ p ∈ tangentSeg m u, p.1 = AttrName.tangent := by
  intro p hp
  unfold tangentSeg at hp
  split at hp
  · rcases List.mem_singleton.mp hp with rfl
    rfl
  · simp at hp

theorem lookup_normal_baseAttrs (m : Mesh) (u : List Dot)
    (hn : m.normals.isSome = true) :
    (baseAttrs m u).lookup AttrName.normal =
      some (u.map (fun d => vec3Row (d.2.normal.getD v0))) := by
  unfold baseAttrs
  rw [lookup_append, lookup_append, lookup_append, lookup_append, lookup_append]
  have h1 : (customSeg m u).lookup AttrName.normal = none := by
    apply lookup_eq_none_of
    intro p hp
    rcases customSeg_names m u p hp with ⟨k, hk⟩
    simp [hk]
  have h2 : (posSeg m (u.map (fun d => d.1))).lookup AttrName.normal = none := by
    apply lookup_eq_none_of
    intro p hp
    rcases List.mem_singleton.mp hp with rfl
    simp
  have h3 : (texSeg m u).lookup AttrName.normal = none := by
    apply lookup_eq_none_of
    intro p hp
    rcases texSeg_names m u p hp with ⟨i, hi⟩
    simp [hi]
  have h4 : (normalSeg m u).lookup AttrName.normal =
      some (u.map (fun d => vec3Row (d.2.normal.getD v0))) := by
    unfold normalSeg
    rw [if_pos hn]
    simp [List.lookup]
  rw [h1, h2, h3, h4]
  simp [Option.or]

theorem lookup_tangent_baseAttrs (m : Mesh) (u : List Dot)
    (ht : m.tangents.isSome = true) :
    (baseAttrs m u).lookup AttrName.tangent =
      some (u.map (fun d => quadRow (d.2.tangent.getD q0))) := by
  unfold baseAttrs
  rw [lookup_append, lookup_append, lookup_append, lookup_append, lookup_append]
  have h1 : (customSeg m u).lookup AttrName.tangent = none := by
    apply lookup_eq_none_of
    intro p hp
    rcases customSeg_names m u p hp with ⟨k, hk⟩
    simp [hk]
  have h2 : (posSeg m (u.map (fun d => d.1))).lookup AttrName.tangent = none := by
    apply lookup_eq_none_of
    intro p hp
    rcases List.mem_singleton.mp hp with rfl
    simp
  have h3 : (texSeg m u).lookup AttrName.tangent = none := by
    apply lookup_eq_none_of
    intro p hp
    rcases texSeg_names m u p hp with ⟨i, hi⟩
    simp [hi]
  have h4 : (normalSeg m u).lookup AttrName.tangent = none := by
    apply lookup_eq_none_of
    intro p hp
    rw [normalSeg_names m u p hp]
    simp
  have h5 : (tangentSeg m u).lookup AttrName.tangent =
      some (u.map (fun d => quadRow (d.2.tangent.getD q0))) := by
    unfold tangentSeg
    rw [if_pos ht]
    simp [List.lookup]
  rw [h1, h2, h3, h4, h5]
  simp [Option.or]

theorem lookup_morphNormal_baseAttrs (m : Mesh) (u : List Dot) (k : Nat)
    (hk : k < m.morphLocs.length) (hmn : m.useMorphNormals = true) :
    (baseAttrs m u).lookup (AttrName.morphNormal k) =
      some (u.map (fun d => vec3Row (d.2.morphNormal.getD k v0))) := by
  unfold baseAttrs
  rw [lookup_append, lookup_append, lookup_append, lookup_append, lookup_append]
  have h1 : (customSeg m u).lookup (AttrName.morphNormal k) = none := by
    apply lookup_eq_none_of
    intro p hp
    rcases customSeg_names m u p hp with ⟨j, hj⟩
    simp [hj]
  have h2 : (posSeg m (u.map (fun d => d.1))).lookup (AttrName.morphNormal k) = none := by
    apply lookup_eq_none_of
    intro p hp
    rcases List.mem_singleton.mp hp with rfl
    simp
  have h3 : (texSeg m u).lookup (AttrName.morphNormal k) = none := by
    apply lookup_eq_none_of
    intro p hp
    rcases texSeg_names m u p hp with ⟨i, hi⟩
    simp [hi]
  have h4 : (normalSeg m u).lookup (AttrName.morphNormal k) = none := by
    apply lookup_eq_none_of
    intro p hp
    rw [normalSeg_names m u p hp]
    simp
  have h5 : (tangentSeg m u).lookup (AttrName.morphNormal k) = none := by
    apply lookup_eq_none_of
    intro p hp
    rw [tangentSeg_names m u p hp]
    simp
  have h6 : (morphSeg m u (u.map (fun d => d.1))).lookup (AttrName.morphNormal k) =
      some (u.map (fun d => vec3Row (d.2.morphNormal.getD k v0))) := by
    unfold morphSeg
    rw [lookup_range_flatMap_at _ _ _ k hk]
    · rw [hmn]
      have hb1 : (AttrName.morphNormal k == AttrName.morphPosition k) = false := by
        simp [BEq.beq]
      simp [List.lookup, hb1]
    · intro j _ hjk p hp
      rcases List.mem_cons.mp hp with h | h
      · simp [h]
      · rw [hmn] at h
        rcases List.mem_singleton.mp h with rfl
        simp [hjk]
  rw [h1, h2, h3, h4, h5, h6]
  simp [Option.or]

theorem calcMorphTangents_length (normals morphNormalDeltas tangents : List (List ℚ)) :
    (calcMorphTangents normals morphNormalDeltas tangents).length = normals.length := by
  simp [calcMorphTangents]

theorem jwSeg_lengths (skin : Option (List (List (Nat × ℚ)) × Nat)) (bidxs : List Nat) :
    ∀ p ∈ jwSeg skin bidxs, p.2.length = bidxs.length := by
  intro p hp
  match skin with
  | none => simp [jwSeg] at hp
  | some (vb, njs) =>
    simp only [jwSeg] at hp
    rcases List.mem_flatMap.mp hp with ⟨s, _, hps⟩
    rcases List.mem_cons.mp hps with h | h
    · rw [h]; simp
    · rcases List.mem_singleton.mp h with rfl
      simp

theorem baseAttrs_lengths (m : Mesh) (u : List Dot) :
    ∀ p ∈ baseAttrs m u, p.2.length = u.length := by
  intro p hp
  unfold baseAttrs at hp
  rcases List.mem_append.mp hp with hp | hp6
  rcases List.mem_append.mp hp with hp | hp5
  rcases List.mem_append.mp hp with hp | hp4
  rcases List.mem_append.mp hp with hp | hp3
  rcases List.mem_append.mp hp with hp1 | hp2
  · rcases List.mem_map.mp hp1 with ⟨k, _, rfl⟩
    simp
  · rcases List.mem_singleton.mp hp2 with rfl
    simp
  · rcases List.mem_map.mp hp3 with ⟨i, _, rfl⟩
    simp
  · unfold normalSeg at hp4
    split at hp4
    · rcases List.mem_singleton.mp hp4 with rfl
      simp
    · simp at hp4
  · unfold tangentSeg at hp5
    split at hp5
    · rcases List.mem_singleton.mp hp5 with rfl
      simp
    · simp at hp5
  · unfold morphSeg at hp6
    rcases List.mem_flatMap.mp hp6 with ⟨k, _, hpk⟩
    rcases List.mem_cons.mp hpk with h | h
    · rw [h]; simp
    · split at h
      · rcases List.mem_singleton.mp h with rfl
        simp
      · simp at h

theorem pass2Seg_lengths (m : Mesh) (u : List Dot)
    (hn : m.useMorphTangents = true → m.normals.isSome = true) :
    ∀ p ∈ pass2Seg m (baseAttrs m u), p.2.length = u.length := by
  intro p hp
  unfold pass2Seg at hp
  split at hp
  · rcases List.mem_map.mp hp with ⟨k, _, rfl⟩
    show (calcMorphTangents _ _ _).length = u.length
    rw [calcMorphTangents_length]
    unfold lookupArr
    rw [lookup_normal_baseAttrs m u (hn (by assumption))]
    simp
  · simp at hp

theorem buildAttrs_lengths (m : Mesh) (skin : Option (List (List (Nat × ℚ)) × Nat))
    (u : List Dot) (hn : m.useMorphTangents = true → m.normals.isSome = true) :
    ∀ p ∈ buildAttrs m skin u, p.2.length = u.length := by
  intro p hp
  unfold buildAttrs at hp
  rcases List.mem_append.mp hp with hp | hp3
  rcases List.mem_append.mp hp with hp1 | hp2
  · exact baseAttrs_lengths m u p hp1
  · exact pass2Seg_lengths m u hn p hp2
  · have := jwSeg_lengths skin (u.map (fun d => d.1)) p hp3
    simpa using this

theorem looseAttrs_lengths (m : Mesh) (skin : Option (List (List (Nat × ℚ)) × Nat))
    (bidxs : List Nat) :
    ∀ p ∈ looseAttrs m skin bidxs, p.2.length = bidxs.length := by
  intro p hp
  unfold looseAttrs at hp
  rcases List.mem_append.mp hp with hp | hp3
  rcases List.mem_append.mp hp with hp1 | hp2
  · rcases List.mem_singleton.mp hp1 with rfl
    simp
  · rcases List.mem_map.mp hp2 with ⟨k, _, rfl⟩
    simp
  · exact jwSeg_lengths skin bidxs p hp3

/-- C8: the coordinate conversion maps each batch row (x, y, z) exactly to
(x, z, -y) — for example (1,2,3) to (1,3,-2) — and applying the conversion
twice is not the identity. -/
theorem c8_axis_convert :
    (∀ l : List Vec3, zup2yupBatch l = l.map (fun v => (v.1, v.2.2, -v.2.1))) ∧
      zup2yup (1, 2, 3) = (1, 3, -2) ∧
      zup2yupBatch (zup2yupBatch [(1, 2, 3)]) ≠ [(1, 2, 3)] := by
  refine ⟨fun l => rfl, rfl, ?_⟩
  decide

/-- C10: the TEXCOORD value recorded in the dot of corner `c` for UV layer
`l` is (u, 1 - v), where (u, v) is the source UV of that corner. -/
theorem c10_uv_flip (m : Mesh) (l c : Nat) (hl : l < m.uvLayers.length)
    (hc : c < m.loops.length)
    (hlen : ∀ layer ∈ m.uvLayers, layer.length = m.loops.length) :
    ((dotsOf m).getD c dot0).2.uv.getD l (0, 0) =
      (((m.uvLayers.getD l []).getD c (0, 0)).1,
        1 - ((m.uvLayers.getD l []).getD c (0, 0)).2) := by
  unfold dotsOf
  rw [getD_range_map _ _ _ _ hc]
  show (m.uvLayers.map (fun layer => (getUvsAttribute layer).getD c (0, 0))).getD l (0, 0) = _
  rw [getD_map_of_lt _ _ _ [] _ hl]
  have hmem : m.uvLayers.getD l [] ∈ m.uvLayers := by
    rw [List.getD_eq_getElem _ _ hl]
    exact List.getElem_mem hl
  have hcl : c < (m.uvLayers.getD l []).length := by
    rw [hlen _ hmem]
    exact hc
  unfold getUvsAttribute
  rw [getD_map_of_lt _ _ _ (0, 0) _ hcl]
  refine Prod.ext rfl ?_
  show -((m.uvLayers.getD l []).getD c (0, 0)).2 + 1 = _
  ring

/-- Mesh used to witness C10: one corner, one UV layer with raw UV (3, 5). -/
def meshC10 : Mesh :=
  { locs := [v0], morphLocs := [], loops := [0], customAttrs := [],
    uvLayers := [[(3, 5)]], normals := none, morphNormals := [],
    tangents := none, useMorphNormals := false, useMorphTangents := false,
    triLoops := [], triMats := [], edges := [] }

theorem c10_uv_flip_witness :
    (0 < meshC10.uvLayers.length ∧ 0 < meshC10.loops.length ∧
        (∀ layer ∈ meshC10.uvLayers, layer.length = meshC10.loops.length)) ∧
      ((dotsOf meshC10).getD 0 dot0).2.uv.getD 0 (0, 0) =
        (((meshC10.uvLayers.getD 0 []).getD 0 (0, 0)).1,
          1 - ((meshC10.uvLayers.getD 0 []).getD 0 (0, 0)).2) :=
  ⟨⟨by decide, by decide, by decide⟩,
    c10_uv_flip meshC10 0 0 (by decide) (by decide) (by decide)⟩

/-- C6 (code_bug evidence): on an attribute list containing a declared
element type with no layout entry, the layout loop does report the
diagnostic, but the following dot-field construction raises `KeyError`
(modelled as `Except.error`) instead of skipping the attribute — the
export aborts rather than continuing. -/
theorem c6_unknown_type_aborts :
    layoutDiagnostics [⟨"INT32_2D", false⟩, ⟨"FLOAT", false⟩] =
        ["blender type not found INT32_2D"] ∧
      dotFieldWidths [⟨"INT32_2D", false⟩, ⟨"FLOAT", false⟩] =
        Except.error "KeyError: len (INT32_2D)" := by
  exact ⟨rfl, rfl⟩

/-- C7 (code_bug evidence): the FACE-domain branch repeats each face value
exactly 4 times regardless of the face's corner count; on a mesh whose
single face is a triangle (3 corners) carrying the value 7, the produced
column has 4 entries and cannot be assigned to the 3 loops (numpy raises,
modelled as `none`), while the specified broadcast would yield [7, 7, 7]. -/
theorem c7_face_broadcast_hardcoded_four :
    faceBroadcast [(7 : ℚ)] = [7, 7, 7, 7] ∧
      assignFaceAttrToDots 3 [(7 : ℚ)] = none ∧
      faceBroadcastSpec [3] [(7 : ℚ)] = [7, 7, 7] := by
  exact ⟨rfl, rfl, rfl⟩

/-- C2: every primitive emitted by `extract_primitives` has attribute
arrays of one common length (its deduplicated vertex count), and when the
primitive has an index buffer every value in it is strictly below that
length. -/
theorem c2_primitive_invariants (m : Mesh) (skin : Option (List (List (Nat × ℚ)) × Nat))
    (st : Settings) (hn : m.useMorphTangents = true → m.normals.isSome = true) :
    ∀ p ∈ extract_primitives m skin st, ∃ n : Nat,
      (∀ a ∈ p.attrs, a.2.length = n) ∧
        (∀ iv, p.indices = some iv → ∀ k ∈ iv, k < n) := by
  intro p hp
  unfold extract_primitives at hp
  rcases List.mem_append.mp hp with hp | hp3
  rcases List.mem_append.mp hp with hp1 | hp2
  · rcases List.mem_filterMap.mp hp1 with ⟨q, _, hbuild⟩
    unfold buildTriPrim at hbuild
    by_cases hz : (npUnique dotR (gatherDots m q.2)).1.length = 0
    · rw [if_pos hz] at hbuild
      exact absurd hbuild (by simp)
    · rw [if_neg hz] at hbuild
      obtain rfl := Option.some.inj hbuild
      refine ⟨(npUnique dotR (gatherDots m q.2)).1.length, ?_, ?_⟩
      · exact buildAttrs_lengths m skin _ hn
      · intro iv hiv
        obtain rfl := Option.some.inj hiv
        exact npUnique_inv_lt dotR (gatherDots m q.2)
  · split at hp2
    · rcases hp2' : (looseEdgePrim m skin) with _ | pe
      · rw [hp2'] at hp2
        simp [Option.toList] at hp2
      · rw [hp2'] at hp2
        simp only [Option.toList] at hp2
        rcases List.mem_singleton.mp hp2 with rfl
        unfold looseEdgePrim at hp2'
        split at hp2'
        · exact absurd hp2' (by simp)
        · obtain rfl := Option.some.inj hp2'
          refine ⟨(npUnique natR (looseEdgeIdxs m)).1.length, ?_, ?_⟩
          · exact looseAttrs_lengths m skin _
          · intro iv hiv
            obtain rfl := Option.some.inj hiv
            exact npUnique_inv_lt natR _
    · simp at hp2
  · split at hp3
    · rcases hp3' : (loosePointPrim m skin) with _ | pp
      · rw [hp3'] at hp3
        simp [Option.toList] at hp3
      · rw [hp3'] at hp3
        simp only [Option.toList] at hp3
        rcases List.mem_singleton.mp hp3 with rfl
        unfold loosePointPrim at hp3'
        split at hp3'
        · exact absurd hp3' (by simp)
        · obtain rfl := Option.some.inj hp3'
          refine ⟨(loosePointIdxs m).length, ?_, ?_⟩
          · exact looseAttrs_lengths m skin _
          · intro iv hiv
            exact absurd hiv (by simp)
    · simp at hp3

/-- Mesh used to witness C2: one triangle over two vertices. -/
def meshC2 : Mesh :=
  { locs := [v0, (1, 0, 0)], morphLocs := [], loops := [0, 1, 0],
    customAttrs := [], uvLayers := [], normals := none, morphNormals := [],
    tangents := none, useMorphNormals := false, useMorphTangents := false,
    triLoops := [0, 1, 2], triMats := [0], edges := [] }

theorem c2_primitive_invariants_witness :
    (meshC2.useMorphTangents = true → meshC2.normals.isSome = true) ∧
      ∀ p ∈ extract_primitives meshC2 none ⟨false, false, false⟩, ∃ n : Nat,
        (∀ a ∈ p.attrs, a.2.length = n) ∧
          (∀ iv, p.indices = some iv → ∀ k ∈ iv, k < n) :=
  ⟨by decide, c2_primitive_invariants meshC2 none ⟨false, false, false⟩ (by decide)⟩

/-- C1: within each material bucket that `extract_primitives` turns into a
triangle primitive, two corners receive the same output vertex index iff
their dot records (source vertex index plus every exported per-corner
attribute value) are equal; indexing the unique records with the index
buffer reproduces the original per-corner record stream at every corner;
and the bucket's primitive carries exactly this index buffer. -/
theorem c1_dedup_correctness (m : Mesh) (b : Bool) (mt : Int) (idxs : List Nat)
    (hp : (mt, idxs) ∈ matPartitions m b) :
    (∀ j1 j2, j1 < (gatherDots m idxs).length → j2 < (gatherDots m idxs).length →
       ((npUnique dotR (gatherDots m idxs)).2.getD j1 0 =
          (npUnique dotR (gatherDots m idxs)).2.getD j2 0 ↔
        (gatherDots m idxs).getD j1 dot0 = (gatherDots m idxs).getD j2 dot0)) ∧
      (∀ j, j < (gatherDots m idxs).length →
        (npUnique dotR (gatherDots m idxs)).1.getD
            ((npUnique dotR (gatherDots m idxs)).2.getD j 0) dot0 =
          (gatherDots m idxs).getD j dot0) ∧
      (∀ skin p, buildTriPrim m skin mt idxs = some p →
        p.indices = some (npUnique dotR (gatherDots m idxs)).2) := by
  refine ⟨?_, ?_, ?_⟩
  · intro j1 j2 h1 h2
    exact npUnique_inv_inj dotR (gatherDots m idxs) j1 j2 h1 h2 dot0
  · intro j h
    exact npUnique_getD_inv dotR (gatherDots m idxs) j h dot0
  · intro skin p hbuild
    unfold buildTriPrim at hbuild
    split at hbuild
    · exact absurd hbuild (by simp)
    · obtain rfl := Option.some.inj hbuild
      rfl

/-- Mesh used to witness C1 and C3: one triangle whose corners hit vertex 1
first, so first-occurrence order and sorted order differ. -/
def meshC1 : Mesh :=
  { locs := [v0, (1, 0, 0)], morphLocs := [], loops := [1, 0, 0],
    customAttrs := [], uvLayers := [], normals := none, morphNormals := [],
    tangents := none, useMorphNormals := false, useMorphTangents := false,
    triLoops := [0, 1, 2], triMats := [0], edges := [] }

theorem c1_dedup_correctness_witness :
    ((Int.ofNat 0, [0, 1, 2]) ∈ matPartitions meshC1 false) ∧
      ((∀ j1 j2, j1 < (gatherDots meshC1 [0, 1, 2]).length →
          j2 < (gatherDots meshC1 [0, 1, 2]).length →
         ((npUnique dotR (gatherDots meshC1 [0, 1, 2])).2.getD j1 0 =
            (npUnique dotR (gatherDots meshC1 [0, 1, 2])).2.getD j2 0 ↔
          (gatherDots meshC1 [0, 1, 2]).getD j1 dot0 =
            (gatherDots meshC1 [0, 1, 2]).getD j2 dot0)) ∧
        (∀ j, j < (gatherDots meshC1 [0, 1, 2]).length →
          (npUnique dotR (gatherDots meshC1 [0, 1, 2])).1.getD
              ((npUnique dotR (gatherDots meshC1 [0, 1, 2])).2.getD j 0) dot0 =
            (gatherDots meshC1 [0, 1, 2]).getD j dot0) ∧
        (∀ skin p, buildTriPrim meshC1 skin (Int.ofNat 0) [0, 1, 2] = some p →
          p.indices = some (npUnique dotR (gatherDots meshC1 [0, 1, 2])).2)) :=
  ⟨by decide, c1_dedup_correctness meshC1 false (Int.ofNat 0) [0, 1, 2] (by decide)⟩

/-- C3 (amended): the unique record set of each material bucket is produced
in ascending record order (sorted by vertex index, then by the attribute
fields — not in first-occurrence order), without duplicates and containing
exactly the bucket's distinct records; the accompanying inverse mapping
sends each original corner position to the position of its record in that
sorted unique list, and it is exactly the primitive's index buffer. -/
theorem c3_sorted_unique_inverse (m : Mesh) (b : Bool) (mt : Int) (idxs : List Nat)
    (hp : (mt, idxs) ∈ matPartitions m b) :
    (npUnique dotR (gatherDots m idxs)).1.Sorted dotR ∧
      (npUnique dotR (gatherDots m idxs)).1.Nodup ∧
      (∀ x, x ∈ (npUnique dotR (gatherDots m idxs)).1 ↔ x ∈ gatherDots m idxs) ∧
      (npUnique dotR (gatherDots m idxs)).2 =
        (gatherDots m idxs).map
          (fun x => npIndexOf x (npUnique dotR (gatherDots m idxs)).1) ∧
      (∀ skin p, buildTriPrim m skin mt idxs = some p →
        p.indices = some (npUnique dotR (gatherDots m idxs)).2) := by
  refine ⟨npUnique_sorted dotR _, npUnique_nodup dotR _,
    fun x => npUnique_mem dotR _ x, npUnique_inv_eq_map dotR _, ?_⟩
  intro skin p hbuild
  unfold buildTriPrim at hbuild
  split at hbuild
  · exact absurd hbuild (by simp)
  · obtain rfl := Option.some.inj hbuild
    rfl

theorem c3_sorted_unique_inverse_witness :
    ((Int.ofNat 0, [0, 1, 2]) ∈ matPartitions meshC1 false) ∧
      ((npUnique dotR (gatherDots meshC1 [0, 1, 2])).1.Sorted dotR ∧
        (npUnique dotR (gatherDots meshC1 [0, 1, 2])).1.Nodup ∧
        (∀ x, x ∈ (npUnique dotR (gatherDots meshC1 [0, 1, 2])).1 ↔
          x ∈ gatherDots meshC1 [0, 1, 2]) ∧
        (npUnique dotR (gatherDots meshC1 [0, 1, 2])).2 =
          (gatherDots meshC1 [0, 1, 2]).map
            (fun x => npIndexOf x (npUnique dotR (gatherDots meshC1 [0, 1, 2])).1) ∧
        (∀ skin p, buildTriPrim meshC1 skin (Int.ofNat 0) [0, 1, 2] = some p →
          p.indices = some (npUnique dotR (gatherDots meshC1 [0, 1, 2])).2)) :=
  ⟨by decide, c3_sorted_unique_inverse meshC1 false (Int.ofNat 0) [0, 1, 2] (by decide)⟩

/-- C3 counterexample: on a triangle whose corner records first hit vertex 1
and then twice vertex 0, the unique record set `np.unique` produces is NOT
in first-occurrence order (the record of vertex 0 is listed first although
the record of vertex 1 occurs first in the corner stream). -/
theorem c3_counterexample :
    (npUnique dotR (gatherDots meshC1 [0, 1, 2])).1 ≠
        firstOccurrenceDedup (gatherDots meshC1 [0, 1, 2]) ∧
      (npUnique dotR (gatherDots meshC1 [0, 1, 2])).2 = [1, 0, 0] := by
  constructor
  · decide
  · decide

theorem insertionSort_eq_nil_iff (l : List (Nat × ℚ)) :
    List.insertionSort weightGe l = [] ↔ l = [] := by
  constructor
  · intro h
    have hperm := List.perm_insertionSort weightGe l
    rw [h] at hperm
    exact (hperm.symm).eq_nil
  · intro h
    rw [h]
    rfl

/-- C5: the bone resolver keeps, per vertex, exactly the (joint, weight)
pairs with weight above 1e-4 whose group resolves to a skin joint, sorted
descending by weight; a vertex with none gets the single synthetic binding
(joint count, 1.0); and the needs-neutral-joint flag is true iff at least
one vertex got the synthetic binding. -/
theorem c5_bone_resolver (jointNames groupNames : List String)
    (verts : List (List (Nat × ℚ))) :
    (∀ i, i < verts.length →
      ((vertexKeptPairs (groupToJoint jointNames groupNames) (verts.getD i []) ≠ [] →
          ((getBoneData jointNames groupNames verts).1.getD i []).Perm
              (vertexKeptPairs (groupToJoint jointNames groupNames) (verts.getD i [])) ∧
            ((getBoneData jointNames groupNames verts).1.getD i []).Sorted weightGe) ∧
        (vertexKeptPairs (groupToJoint jointNames groupNames) (verts.getD i []) = [] →
          (getBoneData jointNames groupNames verts).1.getD i [] =
            [(jointNames.length, 1)]))) ∧
      ((getBoneData jointNames groupNames verts).2.2 = true ↔
        ∃ i, i < verts.length ∧
          vertexKeptPairs (groupToJoint jointNames groupNames) (verts.getD i []) = []) := by
  have h1 : (getBoneData jointNames groupNames verts).1 =
      verts.map (fun groups =>
        if (List.insertionSort weightGe
            (vertexKeptPairs (groupToJoint jointNames groupNames) groups)).isEmpty then
          [(jointNames.length, (1 : ℚ))]
        else List.insertionSort weightGe
          (vertexKeptPairs (groupToJoint jointNames groupNames) groups)) := by
    simp [getBoneData]
  have h2 : (getBoneData jointNames groupNames verts).2.2 =
      verts.any (fun groups =>
        (List.insertionSort weightGe
          (vertexKeptPairs (groupToJoint jointNames groupNames) groups)).isEmpty) := by
    simp [getBoneData]
  constructor
  · intro i hi
    have hgi : (getBoneData jointNames groupNames verts).1.getD i [] =
        (if (List.insertionSort weightGe
            (vertexKeptPairs (groupToJoint jointNames groupNames) (verts.getD i []))).isEmpty then
          [(jointNames.length, (1 : ℚ))]
        else List.insertionSort weightGe
          (vertexKeptPairs (groupToJoint jointNames groupNames) (verts.getD i []))) := by
      rw [h1]
      exact getD_map_of_lt _ verts i [] [] hi
    constructor
    · intro hne
      have hempty : (List.insertionSort weightGe
          (vertexKeptPairs (groupToJoint jointNames groupNames) (verts.getD i []))).isEmpty = false := by
        rcases Bool.eq_false_or_eq_true ((List.insertionSort weightGe
            (vertexKeptPairs (groupToJoint jointNames groupNames) (verts.getD i []))).isEmpty)
          with hb | hb
        · exact absurd ((insertionSort_eq_nil_iff _).mp (List.isEmpty_iff.mp hb)) hne
        · exact hb
      rw [hgi, hempty]
      simp only [Bool.false_eq_true, if_false]
      exact ⟨List.perm_insertionSort weightGe _, List.sorted_insertionSort weightGe _⟩
    · intro hnil
      rw [hgi, hnil]
      rfl
  · rw [h2, List.any_eq_true]
    constructor
    · rintro ⟨groups, hmem, hpg⟩
      rcases List.mem_iff_getElem.mp hmem with ⟨i, hilt, hgi⟩
      refine ⟨i, hilt, ?_⟩
      rw [List.getD_eq_getElem _ _ hilt, hgi]
      exact (insertionSort_eq_nil_iff _).mp (List.isEmpty_iff.mp hpg)
    · rintro ⟨i, hilt, hnil⟩
      refine ⟨verts.getD i [], ?_, ?_⟩
      · rw [List.getD_eq_getElem _ _ hilt]
        exact List.getElem_mem hilt
      · rw [hnil]
        rfl

theorem c5_bone_resolver_witness :
    (∀ i, i < ([[(0, 1/2)], []] : List (List (Nat × ℚ))).length →
      ((vertexKeptPairs (groupToJoint ["Bone"] ["Bone"]) ([[(0, 1/2)], []].getD i []) ≠ [] →
          ((getBoneData ["Bone"] ["Bone"] [[(0, 1/2)], []]).1.getD i []).Perm
              (vertexKeptPairs (groupToJoint ["Bone"] ["Bone"]) ([[(0, 1/2)], []].getD i [])) ∧
            ((getBoneData ["Bone"] ["Bone"] [[(0, 1/2)], []]).1.getD i []).Sorted weightGe) ∧
        (vertexKeptPairs (groupToJoint ["Bone"] ["Bone"]) ([[(0, 1/2)], []].getD i []) = [] →
          (getBoneData ["Bone"] ["Bone"] [[(0, 1/2)], []]).1.getD i [] =
            [((["Bone"] : List String).length, 1)]))) ∧
      ((getBoneData ["Bone"] ["Bone"] [[(0, 1/2)], []]).2.2 = true ↔
        ∃ i, i < ([[(0, 1/2)], []] : List (List (Nat × ℚ))).length ∧
          vertexKeptPairs (groupToJoint ["Bone"] ["Bone"]) ([[(0, 1/2)], []].getD i []) = []) :=
  c5_bone_resolver ["Bone"] ["Bone"] [[(0, 1/2)], []]

/-- C9: on a mesh with no faces, no edges and exactly 3 vertices, with
loose-point export enabled, `extract_primitives` returns exactly one
primitive, of mode points (0), with no index buffer, each of whose
attribute arrays has 3 entries. -/
theorem c9_loose_points (m : Mesh) (skin : Option (List (List (Nat × ℚ)) × Nat))
    (st : Settings) (hT : m.triLoops = []) (hM : m.triMats = [])
    (hE : m.edges = []) (hV : m.locs.length = 3) (hP : st.loosePoints = true) :
    ∃ p, extract_primitives m skin st = [p] ∧ p.mode = 0 ∧ p.indices = none ∧
      ∀ a ∈ p.attrs, a.2.length = 3 := by
  have hpt : loosePointIdxs m = [0, 1, 2] := by
    unfold loosePointIdxs
    rw [hV, hE]
    decide
  have htri : (matPartitions m st.useMaterialsNone).filterMap
      (fun q => buildTriPrim m skin q.1 q.2) = [] := by
    unfold matPartitions
    cases hb : st.useMaterialsNone with
    | false =>
      simp only [Bool.false_eq_true, if_false]
      rw [hM]
      rfl
    | true =>
      simp only [if_true]
      rw [hT]
      rfl
  have hedge : looseEdgePrim m skin = none := by
    unfold looseEdgePrim looseEdgeIdxs
    rw [hE]
    rfl
  refine ⟨Primitive.mk (looseAttrs m skin (loosePointIdxs m)) none 0 0, ?_, rfl, rfl, ?_⟩
  · unfold extract_primitives
    rw [htri, hedge, hP]
    have hpp : loosePointPrim m skin =
        some (Primitive.mk (looseAttrs m skin (loosePointIdxs m)) none 0 0) := by
      unfold loosePointPrim
      rw [hpt]
      rfl
    rw [hpp]
    cases st.looseEdges <;> rfl
  · intro a ha
    rw [looseAttrs_lengths m skin _ a ha, hpt]
    rfl

/-- Mesh used to witness C9: three isolated vertices, nothing else. -/
def meshC9 : Mesh :=
  { locs := [(0, 0, 0), (1, 0, 0), (2, 0, 0)], morphLocs := [[v0, v0, v0]],
    loops := [], customAttrs := [], uvLayers := [], normals := none,
    morphNormals := [], tangents := none, useMorphNormals := false,
    useMorphTangents := false, triLoops := [], triMats := [], edges := [] }

theorem c9_loose_points_witness :
    (meshC9.triLoops = [] ∧ meshC9.triMats = [] ∧ meshC9.edges = [] ∧
        meshC9.locs.length = 3 ∧ (Settings.mk false false true).loosePoints = true) ∧
      ∃ p, extract_primitives meshC9 none (Settings.mk false false true) = [p] ∧
        p.mode = 0 ∧ p.indices = none ∧ ∀ a ∈ p.attrs, a.2.length = 3 :=
  ⟨⟨rfl, rfl, rfl, rfl, rfl⟩,
    c9_loose_points meshC9 none (Settings.mk false false true) rfl rfl rfl rfl rfl⟩

/-- C4 (amended): for every triangle bucket, morph target k and
deduplicated vertex, the MORPH_TANGENT_k attribute is computed in the
second (`after_others`) pass from the already-materialized NORMAL,
MORPH_NORMAL_k and TANGENT arrays of the primitive, and its i-th entry is
R(base tangent) - base tangent where R is the shortest-arc rotation
carrying the MORPHED normal (base + delta) onto the BASE normal (not the
other way around); for unit vectors that rotation indeed maps the morphed
normal to the base normal. -/
theorem c4_morph_tangent_second_pass (m : Mesh)
    (skin : Option (List (List (Nat × ℚ)) × Nat)) (b : Bool) (mt : Int)
    (idxs : List Nat) (k : Nat)
    (hmt : m.useMorphTangents = true) (hmn : m.useMorphNormals = true)
    (hn : m.normals.isSome = true) (ht : m.tangents.isSome = true)
    (hp : (mt, idxs) ∈ matPartitions m b) (hk : k < m.morphLocs.length) :
    ((AttrName.morphTangent k,
        calcMorphTangents
          ((npUnique dotR (gatherDots m idxs)).1.map (fun d => vec3Row (d.2.normal.getD v0)))
          ((npUnique dotR (gatherDots m idxs)).1.map (fun d => vec3Row (d.2.morphNormal.getD k v0)))
          ((npUnique dotR (gatherDots m idxs)).1.map (fun d => quadRow (d.2.tangent.getD q0)))) ∈
      buildAttrs m skin (npUnique dotR (gatherDots m idxs)).1) ∧
      (∀ i, i < (npUnique dotR (gatherDots m idxs)).1.length →
        (calcMorphTangents
            ((npUnique dotR (gatherDots m idxs)).1.map (fun d => vec3Row (d.2.normal.getD v0)))
            ((npUnique dotR (gatherDots m idxs)).1.map (fun d => vec3Row (d.2.morphNormal.getD k v0)))
            ((npUnique dotR (gatherDots m idxs)).1.map (fun d => quadRow (d.2.tangent.getD q0)))).getD i []
          = vec3Row (vsub
              (rotDiffApply
                (vadd (((npUnique dotR (gatherDots m idxs)).1.getD i dot0).2.normal.getD v0)
                  (((npUnique dotR (gatherDots m idxs)).1.getD i dot0).2.morphNormal.getD k v0))
                (((npUnique dotR (gatherDots m idxs)).1.getD i dot0).2.normal.getD v0)
                ((((npUnique dotR (gatherDots m idxs)).1.getD i dot0).2.tangent.getD q0).1,
                 (((npUnique dotR (gatherDots m idxs)).1.getD i dot0).2.tangent.getD q0).2.1,
                 (((npUnique dotR (gatherDots m idxs)).1.getD i dot0).2.tangent.getD q0).2.2.1))
              ((((npUnique dotR (gatherDots m idxs)).1.getD i dot0).2.tangent.getD q0).1,
               (((npUnique dotR (gatherDots m idxs)).1.getD i dot0).2.tangent.getD q0).2.1,
               (((npUnique dotR (gatherDots m idxs)).1.getD i dot0).2.tangent.getD q0).2.2.1))) ∧
      (∀ a c : Vec3, dot3 a a = 1 → rotDiffApply a c a = c) := by
  refine ⟨?_, ?_, ?_⟩
  · apply List.mem_append_left
    apply List.mem_append_right
    unfold pass2Seg
    rw [if_pos hmt]
    have e1 : lookupArr (baseAttrs m (npUnique dotR (gatherDots m idxs)).1) AttrName.normal =
        (npUnique dotR (gatherDots m idxs)).1.map (fun d => vec3Row (d.2.normal.getD v0)) := by
      unfold lookupArr
      rw [lookup_normal_baseAttrs m _ hn]
      rfl
    have e2 : lookupArr (baseAttrs m (npUnique dotR (gatherDots m idxs)).1)
          (AttrName.morphNormal k) =
        (npUnique dotR (gatherDots m idxs)).1.map (fun d => vec3Row (d.2.morphNormal.getD k v0)) := by
      unfold lookupArr
      rw [lookup_morphNormal_baseAttrs m _ k hk hmn]
      rfl
    have e3 : lookupArr (baseAttrs m (npUnique dotR (gatherDots m idxs)).1) AttrName.tangent =
        (npUnique dotR (gatherDots m idxs)).1.map (fun d => quadRow (d.2.tangent.getD q0)) := by
      unfold lookupArr
      rw [lookup_tangent_baseAttrs m _ ht]
      rfl
    apply List.mem_map.mpr
    refine ⟨k, List.mem_range.mpr hk, ?_⟩
    show (AttrName.morphTangent k,
        calcMorphTangents
          (lookupArr (baseAttrs m (npUnique dotR (gatherDots m idxs)).1) AttrName.normal)
          (lookupArr (baseAttrs m (npUnique dotR (gatherDots m idxs)).1) (AttrName.morphNormal k))
          (lookupArr (baseAttrs m (npUnique dotR (gatherDots m idxs)).1) AttrName.tangent)) = _
    rw [e1, e2, e3]
  · intro i hi
    have hi' : i < ((npUnique dotR (gatherDots m idxs)).1.map
        (fun d => vec3Row (d.2.normal.getD v0))).length := by
      simpa using hi
    unfold calcMorphTangents
    rw [getD_range_map _ _ _ _ hi']
    rw [getD_map_of_lt (fun d => vec3Row (d.2.normal.getD v0)) _ i dot0 [] hi,
      getD_map_of_lt (fun d => vec3Row (d.2.morphNormal.getD k v0)) _ i dot0 [] hi,
      getD_map_of_lt (fun d => quadRow (d.2.tangent.getD q0)) _ i dot0 [] hi]
    rfl
  · intro a c ha
    obtain ⟨a1, a2, a3⟩ := a
    obtain ⟨c1, c2, c3⟩ := c
    simp only [dot3] at ha
    have hz : dot3 (cross3 (a1, a2, a3) (c1, c2, c3)) (a1, a2, a3) = 0 := by
      simp only [dot3, cross3]
      ring
    unfold rotDiffApply
    rw [hz, zero_div]
    simp only [vadd, smul, cross3, dot3]
    refine Prod.ext ?_ (Prod.ext ?_ ?_)
    · show _ = c1
      ring_nf
      linear_combination c1 * ha
    · show _ = c2
      ring_nf
      linear_combination c2 * ha
    · show _ = c3
      ring_nf
      linear_combination c3 * ha

/-- C4 counterexample: with base normal (0,0,1), morph normal delta
(1,0,-1) (morphed normal (1,0,0)) and base tangent (1,0,0),
`__calc_morph_tangents` stores (-1,0,1), while the rotation taken from the
base normal TO the morphed normal — the direction the claim states — would
store (-1,0,-1). -/
theorem c4_counterexample :
    calcMorphTangents [[0, 0, 1]] [[1, 0, -1]] [[1, 0, 0, 1]] ≠
      [vec3Row (morphTangentDeltaSpec (0, 0, 1) (1, 0, -1) (1, 0, 0))] := by
  intro h
  have h1 : calcMorphTangents [[0, 0, 1]] [[1, 0, -1]] [[1, 0, 0, 1]] =
      [[-1, 0, 1]] := by
    norm_num [calcMorphTangents, rotDiffApply, rowToVec3, vec3Row, vadd, vsub,
      smul, dot3, cross3, List.range_succ, List.range_zero]
  have h2 : [vec3Row (morphTangentDeltaSpec (0, 0, 1) (1, 0, -1) (1, 0, 0))] =
      [[-1, 0, -1]] := by
    norm_num [morphTangentDeltaSpec, rotDiffApply, rowToVec3, vec3Row, vadd,
      vsub, smul, dot3, cross3]
  rw [h1, h2] at h
  norm_num at h

/-- Mesh used to witness C4: one triangle over one vertex with a unit base
normal, one morph target and a tangent. -/
def meshC4 : Mesh :=
  { locs := [(0, 0, 0)], morphLocs := [[(0, 0, 0)]], loops := [0, 0, 0],
    customAttrs := [], uvLayers := [],
    normals := some [(0, 0, 1), (0, 0, 1), (0, 0, 1)],
    morphNormals := [[(1, 0, -1), (1, 0, -1), (1, 0, -1)]],
    tangents := some [(1, 0, 0, 1), (1, 0, 0, 1), (1, 0, 0, 1)],
    useMorphNormals := true, useMorphTangents := true,
    triLoops := [0, 1, 2], triMats := [0], edges := [] }

theorem c4_morph_tangent_second_pass_witness :
    (meshC4.useMorphTangents = true ∧ meshC4.useMorphNormals = true ∧
        meshC4.normals.isSome = true ∧ meshC4.tangents.isSome = true ∧
        (Int.ofNat 0, [0, 1, 2]) ∈ matPartitions meshC4 false ∧
        0 < meshC4.morphLocs.length) ∧
      (((AttrName.morphTangent 0,
          calcMorphTangents
            ((npUnique dotR (gatherDots meshC4 [0, 1, 2])).1.map (fun d => vec3Row (d.2.normal.getD v0)))
            ((npUnique dotR (gatherDots meshC4 [0, 1, 2])).1.map (fun d => vec3Row (d.2.morphNormal.getD 0 v0)))
            ((npUnique dotR (gatherDots meshC4 [0, 1, 2])).1.map (fun d => quadRow (d.2.tangent.getD q0)))) ∈
        buildAttrs meshC4 none (npUnique dotR (gatherDots meshC4 [0, 1, 2])).1) ∧
        (∀ i, i < (npUnique dotR (gatherDots meshC4 [0, 1, 2])).1.length →
          (calcMorphTangents
              ((npUnique dotR (gatherDots meshC4 [0, 1, 2])).1.map (fun d => vec3Row (d.2.normal.getD v0)))
              ((npUnique dotR (gatherDots meshC4 [0, 1, 2])).1.map (fun d => vec3Row (d.2.morphNormal.getD 0 v0)))
              ((npUnique dotR (gatherDots meshC4 [0, 1, 2])).1.map (fun d => quadRow (d.2.tangent.getD q0)))).getD i []
            = vec3Row (vsub
                (rotDiffApply
                  (vadd (((npUnique dotR (gatherDots meshC4 [0, 1, 2])).1.getD i dot0).2.normal.getD v0)
                    (((npUnique dotR (gatherDots meshC4 [0, 1, 2])).1.getD i dot0).2.morphNormal.getD 0 v0))
                  (((npUnique dotR (gatherDots meshC4 [0, 1, 2])).1.getD i dot0).2.normal.getD v0)
                  ((((npUnique dotR (gatherDots meshC4 [0, 1, 2])).1.getD i dot0).2.tangent.getD q0).1,
                   (((npUnique dotR (gatherDots meshC4 [0, 1, 2])).1.getD i dot0).2.tangent.getD q0).2.1,
                   (((npUnique dotR (gatherDots meshC4 [0, 1, 2])).1.getD i dot0).2.tangent.getD q0).2.2.1))
                ((((npUnique dotR (gatherDots meshC4 [0, 1, 2])).1.getD i dot0).2.tangent.getD q0).1,
                 (((npUnique dotR (gatherDots meshC4 [0, 1, 2])).1.getD i dot0).2.tangent.getD q0).2.1,
                 (((npUnique dotR (gatherDots meshC4 [0, 1, 2])).1.getD i dot0).2.tangent.getD q0).2.2.1))) ∧
        (∀ a c : Vec3, dot3 a a = 1 → rotDiffApply a c a = c)) :=
  ⟨⟨rfl, rfl, rfl, rfl, by decide, by decide⟩,
    c4_morph_tangent_second_pass meshC4 none false (Int.ofNat 0) [0, 1, 2] 0
      rfl rfl rfl rfl (by decide) (by decide)⟩
